import Mathlib

/-!
Verification of the contact-vis temporal contact aggregation and caching core.

The JavaScript source is shallowly embedded: JS numbers used as integer ids,
timestamps and durations become Int; latitude/longitude values become Rat
(they are only copied and min/max-compared in the embedded fragment, never
rounded, so exact rationals model them faithfully); JS Map objects become
insertion-ordered association lists with unique keys; absent/null values
become Option; a fetch whose outcome the surrounding code branches on becomes
an explicit FetchOutcome argument.
-/

/-- A closed integer time interval, as produced by mergeTimePeriods
(JS object with fields start and end). -/
structure Period where
  start : Int
  «end» : Int
deriving DecidableEq

/-- The integer n lies inside period p. -/
def Period.mem (n : Int) (p : Period) : Prop :=
  p.start ≤ n ∧ n ≤ p.«end»

instance (n : Int) (p : Period) : Decidable (Period.mem n p) :=
  inferInstanceAs (Decidable (_ ∧ _))

/-- Two periods share no integer. -/
def Period.Disjoint (p q : Period) : Prop :=
  ∀ n : Int, ¬ (Period.mem n p ∧ Period.mem n q)

/-- The scan loop of mergeTimePeriods: the running interval is (start, e);
each next timestamp either extends it by one or closes it and opens a new
one; the final open interval is closed when the input is exhausted
(data-loader, mergeTimePeriods, loop body and trailing push). -/
def mergeLoop : List Int → Int → Int → List Period
  | [], start, e => [⟨start, e⟩]
  | t :: rest, start, e =>
      if t = e + 1 then mergeLoop rest start t
      else ⟨start, e⟩ :: mergeLoop rest t t

/-- mergeTimePeriods from the data loader: empty input gives an empty list,
otherwise the scan starts with both start and end at the first timestamp. -/
def mergeTimePeriods : List Int → List Period
  | [] => []
  | t :: rest => mergeLoop rest t t

/-- Modelled from the spec (section 4.2) for the refinement claim: scan left
to right with a fold maintaining the closed periods and the running
(start, end) pair, then close the final period. -/
def mergeStepSpec (acc : List Period × Int × Int) (t : Int) : List Period × Int × Int :=
  if t = acc.2.2 + 1 then (acc.1, acc.2.1, t)
  else (acc.1 ++ [⟨acc.2.1, acc.2.2⟩], t, t)

/-- Modelled from the spec (section 4.2): the whole merge as described in
prose, to be compared with the source translation mergeTimePeriods. -/
def mergePeriodsSpec : List Int → List Period
  | [] => []
  | t :: rest =>
      let fin := rest.foldl mergeStepSpec ([], t, t)
      fin.1 ++ [⟨fin.2.1, fin.2.2⟩]

/-- A raw contact record from the data service (spec section 3): contact_type
and through may be absent in the JSON, hence Option. -/
structure RawRecord where
  id1 : Int
  id2 : Int
  timestamp : Int
  lat : Rat
  lng : Rat
  contact_type : Option String
  through : Option Int
deriving DecidableEq

/-- One entry of a ContactPair's points array. -/
structure ContactPoint where
  timestamp : Int
  lng : Rat
  lat : Rat
  contact_type : String
deriving DecidableEq

/-- An aggregated contact pair as built by the data loader's grouping code.
In JS the timePeriods field is attached after grouping; during grouping it is
the empty list here. -/
structure Contact where
  id1 : Int
  id2 : Int
  timestamps : List Int
  points : List ContactPoint
  contact_type : String
  through : Option Int
  timePeriods : List Period
deriving DecidableEq

/-- JS string defaulting x || d: the empty string is falsy, everything else
is kept; an absent value also falls through to the default. -/
def jsOrStr (o : Option String) (d : String) : String :=
  match o with
  | none => d
  | some s => if s = "" then d else s

/-- The canonical (smaller, larger) id pair of a record, written in the
source as record.id1 < record.id2 ? [id1, id2] : [id2, id1]. The JS code
keys its Map with the string smaller|larger, which is in bijection with the
pair, so the pair itself serves as the key here. -/
def canonicalIds (r : RawRecord) : Int × Int :=
  if r.id1 < r.id2 then (r.id1, r.id2) else (r.id2, r.id1)

/-- The record with its two ids swapped. -/
def swapIds (r : RawRecord) : RawRecord :=
  { r with id1 := r.id2, id2 := r.id1 }

/-- The group entry created when a canonical key is first seen
(the contactMap.set branch of the grouping loops). -/
def initContact (r : RawRecord) (fallback : String) : Contact :=
  { id1 := (canonicalIds r).1
    id2 := (canonicalIds r).2
    timestamps := [r.timestamp]
    points := [⟨r.timestamp, r.lng, r.lat, jsOrStr r.contact_type fallback⟩]
    contact_type := jsOrStr r.contact_type fallback
    through := r.through
    timePeriods := [] }

/-- Appending a further record of the same canonical pair to its group
(the else branch of the grouping loops: push onto timestamps and points). -/
def appendRecord (c : Contact) (r : RawRecord) (fallback : String) : Contact :=
  { c with
    timestamps := c.timestamps ++ [r.timestamp]
    points := c.points ++ [⟨r.timestamp, r.lng, r.lat, jsOrStr r.contact_type fallback⟩] }

/-- One step of the grouping loop over a JS Map rendered as an
insertion-ordered association list: update the existing group in place or
append a new one at the end. -/
def insertRecord (fallback : String) (r : RawRecord) :
    List ((Int × Int) × Contact) → List ((Int × Int) × Contact)
  | [] => [(canonicalIds r, initContact r fallback)]
  | (k, c) :: rest =>
      if k = canonicalIds r then (k, appendRecord c r fallback) :: rest
      else (k, c) :: insertRecord fallback r rest

/-- The full grouping pass over the raw records. -/
def groupRecords (data : List RawRecord) (fallback : String) :
    List ((Int × Int) × Contact) :=
  data.foldl (fun m r => insertRecord fallback r m) []

/-- timestamps.sort((a, b) => a - b): a stable ascending sort of JS numbers.
Insertion sort is stable and extensionally equal to any stable sort. -/
def sortTimestamps (l : List Int) : List Int :=
  List.insertionSort (· ≤ ·) l

/-- The ordering used by points.sort((a, b) => a.timestamp - b.timestamp). -/
def pointLE (p q : ContactPoint) : Prop :=
  p.timestamp ≤ q.timestamp

instance : DecidableRel pointLE := fun p q => Int.decLe p.timestamp q.timestamp

/-- Stable ascending sort of points by timestamp. -/
def sortPoints (l : List ContactPoint) : List ContactPoint :=
  List.insertionSort pointLE l

/-- The per-group finishing step shared by processContacts,
preloadDataByTimestamp and processContactData: sort timestamps, sort points,
and compute timePeriods from the sorted timestamps. -/
def finalizeContact (c : Contact) : Contact :=
  let ts := sortTimestamps c.timestamps
  { c with
    timestamps := ts
    points := sortPoints c.points
    timePeriods := mergeTimePeriods ts }

/-- processContactData(data, contactType) from the data loader; the grouping
and finishing code is line-identical inside processContacts and
preloadDataByTimestamp with contactType fixed to direct, so those reuse this
definition. -/
def processContactData (data : List RawRecord) (contactType : String) : List Contact :=
  (groupRecords data contactType).map (fun kc => finalizeContact kc.2)

/-- Math.min folded from an accumulator that starts at +Infinity
(WithTop none); the data never contains NaN, so IEEE min is the order min. -/
def topMin (a : WithTop Rat) (x : Rat) : WithTop Rat :=
  match a with
  | none => some x
  | some a => some (min a x)

/-- Math.max folded from an accumulator that starts at -Infinity. -/
def botMax (a : WithBot Rat) (x : Rat) : WithBot Rat :=
  match a with
  | none => some x
  | some a => some (max a x)

/-- The loader's bounds object; min fields start at Infinity and max fields
at -Infinity, so they live in WithTop/WithBot. -/
structure Bounds where
  minLat : WithTop Rat
  maxLat : WithBot Rat
  minLng : WithTop Rat
  maxLng : WithBot Rat
deriving DecidableEq

/-- The reset value { Infinity, -Infinity, Infinity, -Infinity }. -/
def initialBounds : Bounds :=
  ⟨none, none, none, none⟩

/-- The first traversal of processContacts and the bounds computation of
preloadDataByTimestamp: fold Math.min/Math.max over all records. -/
def computeBounds (records : List RawRecord) : Bounds :=
  records.foldl
    (fun b r =>
      { minLat := topMin b.minLat r.lat
        maxLat := botMax b.maxLat r.lat
        minLng := topMin b.minLng r.lng
        maxLng := botMax b.maxLng r.lng })
    initialBounds

/-- The fallback bounds used by processContacts when no record carried a
valid point (39.9, 40.1, 116.3, 116.5). -/
def defaultBounds : Bounds :=
  ⟨some (399/10 : Rat), some (401/10 : Rat), some (1163/10 : Rat), some (1165/10 : Rat)⟩

/-- Lookup in a JS Map rendered as an association list. -/
def mapGet {κ β : Type} [DecidableEq κ] (m : List (κ × β)) (k : κ) : Option β :=
  (m.find? (fun e => e.1 = k)).map (·.2)

/-- JS Map set: overwrite the existing binding in place, else append. -/
def mapSet {κ β : Type} [DecidableEq κ] (m : List (κ × β)) (k : κ) (v : β) :
    List (κ × β) :=
  match m with
  | [] => [(k, v)]
  | e :: rest => if e.1 = k then (k, v) :: rest else e :: mapSet rest k v

/-- JS Map delete: a Map holds at most one binding per key, so deleting the
key removes every binding with that key. -/
def mapDelete {κ β : Type} [DecidableEq κ] (m : List (κ × β)) (k : κ) :
    List (κ × β) :=
  m.filter (fun e => ¬ e.1 = k)

/-- A stored cache entry of the CacheManager: the data, the Date.now() at
which it was stored, and its time to live in milliseconds. -/
structure CacheEntry (α : Type) where
  data : α
  timestamp : Int
  ttl : Int
deriving DecidableEq

/-- The CacheManager's in-memory Map, generic in the stored data (JS is
untyped; one Map holds every category). -/
structure CacheManager (α : Type) where
  memoryCache : List (String × CacheEntry α)
deriving DecidableEq

/-- The defaultTTL table of the CacheManager constructor; unknown categories
have no entry. -/
def defaultTTL (type : String) : Option Int :=
  if type = "timestamps" then some 3600000
  else if type = "bounds" then some 3600000
  else if type = "contacts" then some 1800000
  else if type = "userContacts" then some 900000
  else if type = "trajectory" then some 900000
  else none

/-- _getCacheKey: the literal cache key string (the constructor stores the
leading part as an instance field). -/
def _getCacheKey (type key : String) : String :=
  "trajectory_cache_" ++ type ++ "_" ++ key

/-- ttl || this.defaultTTL[type] || 15 * 60 * 1000 with JS number
truthiness: null and 0 fall through to the next alternative. -/
def computedTTL (ttl : Option Int) (type : String) : Int :=
  let fallback :=
    match defaultTTL type with
    | some d => if d = 0 then 900000 else d
    | none => 900000
  match ttl with
  | some t => if t = 0 then fallback else t
  | none => fallback

/-- CacheManager.get(type, key): absent key gives null; an entry older than
its ttl is removed and gives null; otherwise the data is returned. Date.now()
is the explicit now argument; the possibly evicted Map is returned alongside. -/
def CacheManager.get {α : Type} (m : CacheManager α) (type key : String) (now : Int) :
    Option α × CacheManager α :=
  let cacheKey := _getCacheKey type key
  match mapGet m.memoryCache cacheKey with
  | none => (none, m)
  | some cached =>
      if now - cached.timestamp > cached.ttl then
        (none, ⟨mapDelete m.memoryCache cacheKey⟩)
      else
        (some cached.data, m)

/-- CacheManager.set(type, key, data, ttl): store unconditionally under the
cache key with the computed ttl and timestamp Date.now(). -/
def CacheManager.set {α : Type} (m : CacheManager α) (type key : String) (data : α)
    (ttl : Option Int) (now : Int) : CacheManager α :=
  ⟨mapSet m.memoryCache (_getCacheKey type key) ⟨data, now, computedTTL ttl type⟩⟩

/-- CacheManager.delete(type, key). -/
def CacheManager.delete {α : Type} (m : CacheManager α) (type key : String) :
    CacheManager α :=
  ⟨mapDelete m.memoryCache (_getCacheKey type key)⟩

/-- A point of a pair trajectory as served by the trajectory endpoint. -/
structure TrajPoint where
  timestamp : Int
  lat : Rat
  lng : Rat
  contact_type : Option String
deriving DecidableEq

/-- The object built and returned by getBoundsInfo. -/
structure BoundsInfo where
  minLat : Rat
  maxLat : Rat
  minLng : Rat
  maxLng : Rat
  centerLat : Rat
  centerLng : Rat
deriving DecidableEq

/-- The JSON body of the bounds endpoint; fields may be absent. -/
structure BoundsResp where
  minLat : Option Rat
  maxLat : Option Rat
  minLng : Option Rat
  maxLng : Option Rat
deriving DecidableEq

/-- The values the data loader stores in the CacheManager, one constructor
per category of data it caches. -/
inductive CacheValue where
  | timestampsVal (l : List Int)
  | contactsVal (rawData : List RawRecord) (contacts : List Contact) (bounds : Bounds)
  | contactListVal (l : List Contact)
  | trajectoryVal (l : List TrajPoint)
  | boundsVal (b : BoundsInfo)
deriving DecidableEq

/-- The CacheManager Map as instantiated by the data loader. -/
abbrev CacheState := CacheManager CacheValue

/-- One prefetched entry of the loader's in-memory dataCache Map. -/
structure PreEntry where
  rawData : List RawRecord
  contacts : List Contact
  bounds : Bounds
deriving DecidableEq

/-- The mutable fields of the DataLoader instance that the embedded methods
read or write. -/
structure LoaderState where
  rawData : List RawRecord
  contacts : List Contact
  bounds : Bounds
  userContacts : List (Int × List Contact)
  userSecondaryContacts : List (Int × List Contact)
  dataCache : List (Int × PreEntry)
deriving DecidableEq

/-- The outcome the surrounding JS branches on after apiFetch and json():
a parsed body with an ok status, a non-ok HTTP status, or a rejection
(network error, or an ok response whose body fails to parse and is then
iterated). -/
inductive FetchOutcome (α : Type) where
  | ok (data : α)
  | httpError
  | networkError
deriving DecidableEq

/-- How a JS async function ends for its caller: a normally returned value
or a thrown error. The embedded repository methods catch internally, so they
only ever produce normal. -/
inductive JsOutcome (β : Type) where
  | normal (b : β)
  | thrown
deriving DecidableEq

/-- processContacts from the data loader: recompute the bounds (falling back
to the default city rectangle when no record yields one), regroup
this.rawData into canonical contacts; the grouping body is line-identical to
processContactData with fallback type direct. -/
def processContacts (st : LoaderState) : LoaderState :=
  let b := computeBounds st.rawData
  let b := if b.minLat = none then defaultBounds else b
  { st with bounds := b, contacts := processContactData st.rawData "direct" }

/-- preloadDataByTimestamp(timestamp): no-op when the timestamp is already
in the dataCache; otherwise fetch and aggregate without touching the display
state, storing the result in dataCache; every failure is caught, logged and
swallowed. -/
def preloadDataByTimestamp (st : LoaderState) (timestamp : Int)
    (fetch : FetchOutcome (List RawRecord)) : LoaderState :=
  if (mapGet st.dataCache timestamp).isSome then st
  else
    match fetch with
    | .ok tempRawData =>
        { st with
          dataCache := mapSet st.dataCache timestamp
            ⟨tempRawData, processContactData tempRawData "direct", computeBounds tempRawData⟩ }
    | _ => st

/-- loadDataByTimestamp(timestamp): serve from the dataCache (consuming the
entry) or from the CacheManager contacts entry; otherwise fetch, aggregate
via processContacts, store the aggregate in the CacheManager and return
true; a fetch failure is caught, alerted and reported as false. -/
def loadDataByTimestamp (st : LoaderState) (cache : CacheState) (now timestamp : Int)
    (fetch : FetchOutcome (List RawRecord)) : LoaderState × CacheState × Bool :=
  match mapGet st.dataCache timestamp with
  | some cached =>
      ({ st with
          rawData := cached.rawData
          contacts := cached.contacts
          bounds := cached.bounds
          dataCache := mapDelete st.dataCache timestamp },
        cache, true)
  | none =>
      match CacheManager.get cache "contacts" (toString timestamp) now with
      | (some (CacheValue.contactsVal r c b), cache) =>
          ({ st with rawData := r, contacts := c, bounds := b }, cache, true)
      | (some _, cache) =>
          -- unreachable in the running system: only contactsVal is ever
          -- stored under the contacts category
          (st, cache, true)
      | (none, cache) =>
          match fetch with
          | .ok responseData =>
              let st := processContacts { st with rawData := responseData }
              let cache := CacheManager.set cache "contacts" (toString timestamp)
                (CacheValue.contactsVal st.rawData st.contacts st.bounds) none now
              (st, cache, true)
          | _ => (st, cache, false)

/-- queryUserContacts(userId): serve from the userContacts cache category,
else fetch, aggregate with fallback type direct, cache and index the result;
a failure is caught, alerted, and an empty array is returned. -/
def queryUserContacts (st : LoaderState) (cache : CacheState) (userId now : Int)
    (fetch : FetchOutcome (List RawRecord)) :
    JsOutcome (List Contact) × LoaderState × CacheState :=
  match CacheManager.get cache "userContacts" ("direct_" ++ toString userId) now with
  | (some (CacheValue.contactListVal l), cache) =>
      (.normal l, { st with userContacts := mapSet st.userContacts userId l }, cache)
  | (some _, cache) =>
      -- unreachable: only contactListVal is stored under userContacts
      (.normal [], st, cache)
  | (none, cache) =>
      match fetch with
      | .ok data =>
          let processed := processContactData data "direct"
          (.normal processed,
            { st with userContacts := mapSet st.userContacts userId processed },
            CacheManager.set cache "userContacts" ("direct_" ++ toString userId)
              (CacheValue.contactListVal processed) none now)
      | _ => (.normal [], st, cache)

/-- queryUserSecondaryContacts(userId): as queryUserContacts with the
secondary key and fallback type indirect. -/
def queryUserSecondaryContacts (st : LoaderState) (cache : CacheState) (userId now : Int)
    (fetch : FetchOutcome (List RawRecord)) :
    JsOutcome (List Contact) × LoaderState × CacheState :=
  match CacheManager.get cache "userContacts" ("secondary_" ++ toString userId) now with
  | (some (CacheValue.contactListVal l), cache) =>
      (.normal l, { st with userSecondaryContacts := mapSet st.userSecondaryContacts userId l }, cache)
  | (some _, cache) =>
      (.normal [], st, cache)
  | (none, cache) =>
      match fetch with
      | .ok data =>
          let processed := processContactData data "indirect"
          (.normal processed,
            { st with userSecondaryContacts := mapSet st.userSecondaryContacts userId processed },
            CacheManager.set cache "userContacts" ("secondary_" ++ toString userId)
              (CacheValue.contactListVal processed) none now)
      | _ => (.normal [], st, cache)

/-- The normalized cache key of getContactTrajectory: ids in ascending order
joined by an underscore. -/
def trajectoryCacheKey (id1 id2 : Int) : String :=
  toString (min id1 id2) ++ "_" ++ toString (max id1 id2)

/-- getContactTrajectory(id1, id2): canonicalize the ids, serve from the
trajectory cache category, else fetch, cache and return the data; a failure
is caught, alerted, and an empty array is returned. -/
def getContactTrajectory (cache : CacheState) (id1 id2 now : Int)
    (fetch : FetchOutcome (List TrajPoint)) :
    JsOutcome (List TrajPoint) × CacheState :=
  match CacheManager.get cache "trajectory" (trajectoryCacheKey id1 id2) now with
  | (some (CacheValue.trajectoryVal l), cache) =>
      (.normal l, cache)
  | (some _, cache) =>
      -- unreachable: only trajectoryVal is stored under trajectory
      (.normal [], cache)
  | (none, cache) =>
      match fetch with
      | .ok data =>
          (.normal data,
            CacheManager.set cache "trajectory" (trajectoryCacheKey id1 id2)
              (CacheValue.trajectoryVal data) none now)
      | _ => (.normal [], cache)

/-- bounds.minLat || 39.9 on JS numbers: 0 (and NaN, which the data never
contains) falls through to the default. -/
def jsOrRat (o : Option Rat) (d : Rat) : Rat :=
  match o with
  | none => d
  | some x => if x = 0 then d else x

/-- ((a + b) / 2) || d: arithmetic on an absent field gives NaN, which is
falsy; a present zero midpoint is also falsy. -/
def jsCenter (a b : Option Rat) (d : Rat) : Rat :=
  match a, b with
  | some x, some y => if (x + y) / 2 = 0 then d else (x + y) / 2
  | _, _ => d

/-- The object returned by getBoundsInfo's catch branch. -/
def fallbackBoundsInfo : BoundsInfo :=
  ⟨399/10, 401/10, 1163/10, 1165/10, 40, 1164/10⟩

/-- getBoundsInfo(): serve from the bounds cache category, else fetch,
default each missing or falsy field, cache and return; a failure is caught
and the fixed default object is returned (and not cached). -/
def getBoundsInfo (cache : CacheState) (now : Int)
    (fetch : FetchOutcome BoundsResp) : JsOutcome BoundsInfo × CacheState :=
  match CacheManager.get cache "bounds" "all" now with
  | (some (CacheValue.boundsVal b), cache) =>
      (.normal b, cache)
  | (some _, cache) =>
      -- unreachable: only boundsVal is stored under bounds
      (.normal fallbackBoundsInfo, cache)
  | (none, cache) =>
      match fetch with
      | .ok bounds =>
          let boundsInfo : BoundsInfo :=
            { minLat := jsOrRat bounds.minLat (399/10)
              maxLat := jsOrRat bounds.maxLat (401/10)
              minLng := jsOrRat bounds.minLng (1163/10)
              maxLng := jsOrRat bounds.maxLng (1165/10)
              centerLat := jsCenter bounds.minLat bounds.maxLat 40
              centerLng := jsCenter bounds.minLng bounds.maxLng (1164/10) }
          (.normal boundsInfo,
            CacheManager.set cache "bounds" "all" (CacheValue.boundsVal boundsInfo) none now)
      | _ => (.normal fallbackBoundsInfo, cache)

/-- One entry of the new-contacts list built by
calculateAndRenderNewContacts; lat and lng are null when no point of the
contact carries the current timestamp (which the guard prevents). -/
structure NewContact where
  id1 : Int
  id2 : Int
  contact_type : String
  through : Option Int
  timestamp : Int
  lat : Option Rat
  lng : Option Rat
deriving DecidableEq

/-- The first forEach of calculateAndRenderNewContacts: keep each loaded
contact that has a point at the current timestamp, canonicalize its id pair,
and deduplicate by that key while collecting the display entries. -/
def collectCurrent (currentTimestamp : Int) :
    List Contact → List (Int × Int) → List NewContact
  | [], _ => []
  | c :: rest, seen =>
      if c.points.any (fun p => p.timestamp = currentTimestamp) then
        let k := if c.id1 < c.id2 then (c.id1, c.id2) else (c.id2, c.id1)
        if k ∈ seen then collectCurrent currentTimestamp rest seen
        else
          let currentPoint := c.points.find? (fun p => p.timestamp = currentTimestamp)
          { id1 := k.1
            id2 := k.2
            contact_type := if c.contact_type = "" then "direct" else c.contact_type
            through := c.through
            timestamp := currentTimestamp
            lat := currentPoint.map (·.lat)
            lng := currentPoint.map (·.lng) } ::
            collectCurrent currentTimestamp rest (k :: seen)
      else collectCurrent currentTimestamp rest seen

/-- The canonical pairs present at the current timestamp, with their display
data, in loaded order. -/
def currentContactsData (contacts : List Contact) (currentTimestamp : Int) :
    List NewContact :=
  collectCurrent currentTimestamp contacts []

/-- allTimestamps.indexOf(currentTimestamp) followed by the
currentIndex > 0 ? allTimestamps[currentIndex - 1] : null selection. -/
def previousTimestampOf (allTimestamps : List Int) (ts : Int) : Option Int :=
  match allTimestamps.findIdx? (fun y => y = ts) with
  | some (i + 1) => allTimestamps[i]?
  | _ => none

/-- The canonical key a NewContact was stored under (its ids are already in
canonical order). -/
def keyOfNewContact (c : NewContact) : Int × Int :=
  (c.id1, c.id2)

/-- The computation of calculateAndRenderNewContacts(currentTimestamp),
yielding the allNewContacts list that is then rendered (the DOM rendering is
outside this embedding): with a previous timestamp and a successful fetch of
its records, keep the current pairs absent from the previous canonical key
set; with no previous timestamp, or on any fetch failure, every current pair
counts as new. -/
def calculateAndRenderNewContacts (contacts : List Contact)
    (allTimestamps : List Int) (currentTimestamp : Int)
    (prevFetch : FetchOutcome (List RawRecord)) : List NewContact :=
  let cur := currentContactsData contacts currentTimestamp
  match previousTimestampOf allTimestamps currentTimestamp with
  | some _ =>
      match prevFetch with
      | .ok previousData =>
          let previousKeys := previousData.map canonicalIds
          cur.filter (fun c => ¬ keyOfNewContact c ∈ previousKeys)
      | _ => cur
  | none => cur

/-- The invariant claimed for the timePeriods of an aggregated pair
(spec section 3): pairwise disjoint, ascending, and covering exactly the
integers of the timestamps field. -/
def PeriodsInvariant (c : Contact) : Prop :=
  List.Pairwise Period.Disjoint c.timePeriods ∧
  List.Chain' (fun p q => p.«end» < q.start) c.timePeriods ∧
  (∀ n : Int, (∃ p ∈ c.timePeriods, Period.mem n p) ↔ n ∈ c.timestamps)

/-- A DataLoader as freshly constructed. -/
def emptyLoaderState : LoaderState :=
  ⟨[], [], initialBounds, [], [], []⟩

/-- A CacheManager as freshly constructed. -/
def emptyCacheState : CacheState :=
  ⟨[]⟩

/-- Concrete delta-engine example (spec section 8): contact (1,2) loaded at
timestamp 10. -/
def cT12 : Contact :=
  ⟨1, 2, [10], [⟨10, 0, 0, "direct"⟩], "direct", none, [⟨10, 10⟩]⟩

/-- Concrete delta-engine example: contact (5,6) loaded at timestamp 10. -/
def cT56 : Contact :=
  ⟨5, 6, [10], [⟨10, 0, 0, "direct"⟩], "direct", none, [⟨10, 10⟩]⟩

/-- Concrete delta-engine example: previous-timestamp record of pair (1,2). -/
def rP12 : RawRecord :=
  ⟨1, 2, 9, 0, 0, some "direct", none⟩

/-- Concrete delta-engine example: previous-timestamp record of pair (3,4). -/
def rP34 : RawRecord :=
  ⟨3, 4, 9, 0, 0, some "direct", none⟩

/-- Two records of the pair (1,2) repeating timestamp 100 at different
locations. -/
def rDupA : RawRecord :=
  ⟨1, 2, 100, 1, 1, some "direct", none⟩

/-- Second record of the pair (1,2) at the repeated timestamp 100. -/
def rDupB : RawRecord :=
  ⟨1, 2, 100, 2, 2, some "direct", none⟩

/-- Two records of the pair (4,5) repeating timestamp 200, as loader raw
data. -/
def rDupC : RawRecord :=
  ⟨4, 5, 200, 1, 1, some "direct", none⟩

/-- Second record of the pair (4,5) at the repeated timestamp 200. -/
def rDupD : RawRecord :=
  ⟨5, 4, 200, 2, 2, some "direct", none⟩

/-- Loader state whose raw data repeats a timestamp for one pair. -/
def stDup : LoaderState :=
  { emptyLoaderState with rawData := [rDupC, rDupD] }

/-- End-to-end example of spec section 8: record (2,9) at timestamp 100. -/
def rE1 : RawRecord :=
  ⟨2, 9, 100, 1, 1, some "direct", none⟩

/-- End-to-end example of spec section 8: record (9,2) at timestamp 101. -/
def rE2 : RawRecord :=
  ⟨9, 2, 101, 1, 1, some "direct", none⟩

/-- The aggregate the end-to-end example produces. -/
def cE : Contact :=
  ⟨2, 9, [100, 101], [⟨100, 1, 1, "direct"⟩, ⟨101, 1, 1, "direct"⟩],
    "direct", none, [⟨100, 101⟩]⟩

/-- A single record of the pair (3,7) at timestamp 50. -/
def rW1 : RawRecord :=
  ⟨7, 3, 50, 1, 1, none, none⟩

/-- The aggregate rW1 produces under fallback type direct. -/
def cW1 : Contact :=
  ⟨3, 7, [50], [⟨50, 1, 1, "direct"⟩], "direct", none, [⟨50, 50⟩]⟩

/-- A prefetched dataCache entry used by concrete instances. -/
def preEntryW : PreEntry :=
  ⟨[rE1], [cE], initialBounds⟩

/-- A loader state holding a prefetched entry for timestamp 5. -/
def stPreW : LoaderState :=
  { emptyLoaderState with dataCache := [(5, preEntryW)] }

/-! ## Helper lemmas -/

theorem mergeLoop_eq_foldl (ts : List Int) :
    ∀ (closed : List Period) (s e : Int),
      (ts.foldl mergeStepSpec (closed, s, e)).1 ++
          [⟨(ts.foldl mergeStepSpec (closed, s, e)).2.1,
            (ts.foldl mergeStepSpec (closed, s, e)).2.2⟩] =
        closed ++ mergeLoop ts s e := by
  induction ts with
  | nil => intro closed s e; simp [mergeLoop]
  | cons t rest ih =>
      intro closed s e
      rw [List.foldl_cons]
      by_cases h : t = e + 1
      · subst h
        rw [show mergeStepSpec (closed, s, e) (e + 1) = (closed, s, e + 1) from by
          simp [mergeStepSpec]]
        rw [ih closed s (e + 1)]
        rw [show mergeLoop ((e + 1) :: rest) s e = mergeLoop rest s (e + 1) from by
          simp [mergeLoop]]
      · rw [show mergeStepSpec (closed, s, e) t = (closed ++ [⟨s, e⟩], t, t) from by
          simp [mergeStepSpec, h]]
        rw [ih (closed ++ [Period.mk s e]) t t]
        rw [show mergeLoop (t :: rest) s e = ⟨s, e⟩ :: mergeLoop rest t t from by
          simp [mergeLoop, h]]
        simp

theorem mergeLoop_invariants (ts : List Int) :
    ∀ s e : Int, s ≤ e → List.Chain' (· < ·) (e :: ts) →
      (∀ p ∈ mergeLoop ts s e, s ≤ p.start) ∧
      List.Pairwise (fun p q => p.«end» < q.start) (mergeLoop ts s e) ∧
      (∀ n : Int, (∃ p ∈ mergeLoop ts s e, Period.mem n p) ↔
        (s ≤ n ∧ n ≤ e) ∨ n ∈ ts) := by
  induction ts with
  | nil =>
      intro s e hse _
      refine ⟨?_, ?_, ?_⟩
      · intro p hp
        simp only [mergeLoop, List.mem_singleton] at hp
        subst hp; exact le_refl s
      · simp [mergeLoop]
      · intro n
        simp [mergeLoop, Period.mem]
  | cons t rest ih =>
      intro s e hse hch
      have het : e < t := (List.chain'_cons.mp hch).1
      have hch' : List.Chain' (· < ·) (t :: rest) := (List.chain'_cons.mp hch).2
      by_cases hte : t = e + 1
      · have IH := ih s t (by omega) hch'
        rw [show mergeLoop (t :: rest) s e = mergeLoop rest s t from by
          simp [mergeLoop, hte]]
        refine ⟨IH.1, IH.2.1, ?_⟩
        intro n
        rw [IH.2.2 n]
        constructor
        · rintro (⟨h1, h2⟩ | hr)
          · rcases le_or_lt n e with h3 | h3
            · exact Or.inl ⟨h1, h3⟩
            · have hnt : n = t := by omega
              exact Or.inr (by simp [hnt])
          · exact Or.inr (List.mem_cons_of_mem _ hr)
        · rintro (⟨h1, h2⟩ | hr)
          · exact Or.inl ⟨h1, by omega⟩
          · rcases List.mem_cons.mp hr with h | h
            · exact Or.inl ⟨by omega, by omega⟩
            · exact Or.inr h
      · have IH := ih t t (le_refl t) hch'
        rw [show mergeLoop (t :: rest) s e = ⟨s, e⟩ :: mergeLoop rest t t from by
          simp [mergeLoop, hte]]
        refine ⟨?_, ?_, ?_⟩
        · intro p hp
          rcases List.mem_cons.mp hp with rfl | hpM
          · exact le_refl s
          · have := IH.1 p hpM
            omega
        · refine List.pairwise_cons.mpr ⟨?_, IH.2.1⟩
          intro q hq
          have := IH.1 q hq
          simp only []
          omega
        · intro n
          have hM := IH.2.2 n
          constructor
          · rintro ⟨p, hp, hmem⟩
            rcases List.mem_cons.mp hp with rfl | hpM
            · exact Or.inl ⟨hmem.1, hmem.2⟩
            · rcases hM.mp ⟨p, hpM, hmem⟩ with ⟨h1, h2⟩ | hr
              · have hnt : n = t := by omega
                exact Or.inr (by simp [hnt])
              · exact Or.inr (List.mem_cons_of_mem _ hr)
          · rintro (⟨h1, h2⟩ | hr)
            · exact ⟨⟨s, e⟩, List.mem_cons_self _ _, h1, h2⟩
            · rcases List.mem_cons.mp hr with rfl | hmem
              · obtain ⟨p, hpM, hm⟩ := hM.mpr (Or.inl ⟨le_refl _, le_refl _⟩)
                exact ⟨p, List.mem_cons_of_mem _ hpM, hm⟩
              · obtain ⟨p, hpM, hm⟩ := hM.mpr (Or.inr hmem)
                exact ⟨p, List.mem_cons_of_mem _ hpM, hm⟩

theorem mergeTimePeriods_invariants (ts : List Int)
    (h : List.Chain' (· < ·) ts) :
    List.Pairwise Period.Disjoint (mergeTimePeriods ts) ∧
    List.Chain' (fun p q => p.«end» < q.start) (mergeTimePeriods ts) ∧
    (∀ n : Int, (∃ p ∈ mergeTimePeriods ts, Period.mem n p) ↔ n ∈ ts) := by
  cases ts with
  | nil =>
      refine ⟨List.Pairwise.nil, List.chain'_nil, ?_⟩
      intro n; simp [mergeTimePeriods]
  | cons t rest =>
      have inv := mergeLoop_invariants rest t t (le_refl t) h
      rw [show mergeTimePeriods (t :: rest) = mergeLoop rest t t from rfl]
      refine ⟨?_, inv.2.1.chain', ?_⟩
      · refine inv.2.1.imp ?_
        intro p q hpq
        intro n hn
        have h1 := hn.1.2
        have h2 := hn.2.1
        omega
      · intro n
        rw [inv.2.2 n]
        constructor
        · rintro (⟨h1, h2⟩ | hr)
          · have : n = t := by omega
            exact this ▸ List.mem_cons_self _ _
          · exact List.mem_cons_of_mem _ hr
        · intro hmem
          rcases List.mem_cons.mp hmem with rfl | hmem
          · exact Or.inl ⟨le_refl _, le_refl _⟩
          · exact Or.inr hmem

theorem chain'_lt_of_sorted_nodup {l : List Int}
    (hs : List.Sorted (· ≤ ·) l) (hn : l.Nodup) : List.Chain' (· < ·) l := by
  have hp : List.Pairwise (· < ·) l := by
    refine (List.Pairwise.and hs hn).imp ?_
    intro a b hab
    exact lt_of_le_of_ne hab.1 hab.2
  exact hp.chain'

theorem exists_finalize_of_mem_processContactData
    {data : List RawRecord} {ct : String} {c : Contact}
    (h : c ∈ processContactData data ct) :
    ∃ c₀ : Contact, c = finalizeContact c₀ := by
  simp only [processContactData, List.mem_map] at h
  obtain ⟨kc, _, hkc⟩ := h
  exact ⟨kc.2, hkc.symm⟩

theorem finalizeContact_timestamps_sorted (c₀ : Contact) :
    List.Sorted (· ≤ ·) (finalizeContact c₀).timestamps :=
  List.sorted_insertionSort (· ≤ ·) c₀.timestamps

theorem finalizeContact_timePeriods (c₀ : Contact) :
    (finalizeContact c₀).timePeriods =
      mergeTimePeriods (finalizeContact c₀).timestamps := rfl

theorem mapGet_mapSet_self {κ β : Type} [DecidableEq κ]
    (m : List (κ × β)) (k : κ) (v : β) :
    mapGet (mapSet m k v) k = some v := by
  induction m with
  | nil => simp [mapGet, mapSet]
  | cons e rest ih =>
      by_cases h : e.1 = k
      · simp [mapSet, h, mapGet]
      · simp only [mapSet, if_neg h]
        simp only [mapGet, List.find?] at ih ⊢
        rw [show (decide (e.1 = k)) = false from by simp [h]]
        exact ih

theorem mapGet_mapDelete_self {κ β : Type} [DecidableEq κ]
    (m : List (κ × β)) (k : κ) :
    mapGet (mapDelete m k) k = none := by
  induction m with
  | nil => simp [mapGet, mapDelete]
  | cons e rest ih =>
      by_cases h : e.1 = k
      · simpa [mapDelete, h] using ih
      · simp only [mapDelete, List.filter] at ih ⊢
        rw [show (decide (¬ e.1 = k)) = true from by simp [h]]
        simp only [mapGet, List.find?] at ih ⊢
        rw [show (decide (e.1 = k)) = false from by simp [h]]
        exact ih

/-! ## Claim theorems -/

/-- C1: mergeTimePeriods implements the specified run-length merge over
consecutive integers — it agrees with the spec-modelled scan
mergePeriodsSpec on every input, returns the empty list on the empty input,
and satisfies the three stated examples. -/
theorem mergeTimePeriods_correct :
    (∀ ts : List Int, mergeTimePeriods ts = mergePeriodsSpec ts) ∧
    mergeTimePeriods [] = [] ∧
    mergeTimePeriods [5] = [⟨5, 5⟩] ∧
    mergeTimePeriods [1, 2, 3, 7, 8] = [⟨1, 3⟩, ⟨7, 8⟩] := by
  refine ⟨?_, rfl, rfl, by decide⟩
  intro ts
  cases ts with
  | nil => rfl
  | cons t rest =>
      have h := mergeLoop_eq_foldl rest [] t t
      simp only [List.nil_append] at h
      simp only [mergePeriodsSpec, mergeTimePeriods]
      exact h.symm

theorem canonicalIds_swapIds (r : RawRecord) :
    canonicalIds (swapIds r) = canonicalIds r := by
  simp only [canonicalIds, swapIds]
  split_ifs with h1 h2 h2
  · omega
  · rfl
  · rfl
  · have h : r.id1 = r.id2 := by omega
    rw [h]

theorem canonicalIds_min_max (r : RawRecord) :
    canonicalIds r = (min r.id1 r.id2, max r.id1 r.id2) := by
  simp only [canonicalIds, min_def, max_def]
  split_ifs <;> first
    | rfl
    | omega
    | (refine Prod.ext ?_ ?_ <;> simp <;> omega)

theorem initContact_swapIds (r : RawRecord) (fallback : String) :
    initContact (swapIds r) fallback = initContact r fallback := by
  unfold initContact
  rw [canonicalIds_swapIds]
  simp [swapIds]

theorem appendRecord_swapIds (c : Contact) (r : RawRecord) (fallback : String) :
    appendRecord c (swapIds r) fallback = appendRecord c r fallback := by
  simp [appendRecord, swapIds]

theorem insertRecord_swapIds (fallback : String) (r : RawRecord)
    (m : List ((Int × Int) × Contact)) :
    insertRecord fallback (swapIds r) m = insertRecord fallback r m := by
  induction m with
  | nil => simp [insertRecord, canonicalIds_swapIds, initContact_swapIds]
  | cons e rest ih =>
      obtain ⟨k, c⟩ := e
      simp only [insertRecord, canonicalIds_swapIds, appendRecord_swapIds, ih]

theorem trajectoryCacheKey_comm (a b : Int) :
    trajectoryCacheKey a b = trajectoryCacheKey b a := by
  simp [trajectoryCacheKey, min_comm, max_comm]

/-- C4: canonicalization is swap-invariant — a record with swapped ids is
grouped under the same key (indeed grouping treats it identically), the key
is (min, max), and trajectory lookups normalize their cache key the same
way, so (5,9) and (9,5) use the same cache entry. -/
theorem canonicalization_swap_invariant :
    (∀ r : RawRecord, canonicalIds (swapIds r) = canonicalIds r) ∧
    (∀ r : RawRecord, canonicalIds r = (min r.id1 r.id2, max r.id1 r.id2)) ∧
    (∀ (fallback : String) (r : RawRecord) (m : List ((Int × Int) × Contact)),
        insertRecord fallback (swapIds r) m = insertRecord fallback r m) ∧
    (∀ a b : Int, trajectoryCacheKey a b = trajectoryCacheKey b a) ∧
    (∀ (cache : CacheState) (a b now : Int) (f : FetchOutcome (List TrajPoint)),
        getContactTrajectory cache a b now f = getContactTrajectory cache b a now f) ∧
    trajectoryCacheKey 5 9 = trajectoryCacheKey 9 5 := by
  refine ⟨canonicalIds_swapIds, canonicalIds_min_max, insertRecord_swapIds,
    trajectoryCacheKey_comm, ?_, trajectoryCacheKey_comm 5 9⟩
  intro cache a b now f
  simp only [getContactTrajectory, trajectoryCacheKey_comm a b]

/-- C5 counterexample: two records of pair (1,2) that repeat timestamp 100
aggregate to the timestamps sequence [100, 100] — sorted, but not
de-duplicated and not strictly increasing, contrary to the claim. -/
theorem processContactData_no_dedup_counterexample :
    ((processContactData [rDupA, rDupB] "direct").map (fun c => c.timestamps) =
      [[100, 100]]) ∧
    ¬ List.Chain' (· < ·) [(100 : Int), 100] := by
  refine ⟨by decide, ?_⟩
  intro h
  exact absurd (List.chain'_cons.mp h).1 (by omega)

/-- C5 amended: the timestamps field of every aggregated pair is sorted
ascending, but duplicates are retained (no de-duplication is performed); the
sequence is strictly increasing only when it happens to contain no
duplicate, i.e. when no record repeats a timestamp for the pair. -/
theorem processContactData_timestamps_sorted :
    ∀ (data : List RawRecord) (ct : String) (c : Contact),
      c ∈ processContactData data ct →
        List.Sorted (· ≤ ·) c.timestamps ∧
        (c.timestamps.Nodup → List.Chain' (· < ·) c.timestamps) := by
  intro data ct c hc
  obtain ⟨c₀, rfl⟩ := exists_finalize_of_mem_processContactData hc
  refine ⟨finalizeContact_timestamps_sorted c₀, ?_⟩
  intro hn
  exact chain'_lt_of_sorted_nodup (finalizeContact_timestamps_sorted c₀) hn

/-- C5 witness: the single-record aggregate of rW1 has the strictly
increasing timestamps sequence [50]. -/
theorem processContactData_timestamps_sorted_witness :
    List.Sorted (· ≤ ·) cW1.timestamps ∧
    (cW1.timestamps.Nodup → List.Chain' (· < ·) cW1.timestamps) :=
  processContactData_timestamps_sorted [rW1] "direct" cW1 (by decide)

/-- C6 counterexample: raw data repeating timestamp 200 for the pair (4,5)
yields the timePeriods [{200,200},{200,200}] — two overlapping (hence not
disjoint, not ascending) periods, contrary to the claimed invariant. -/
theorem processContacts_timePeriods_counterexample :
    ((processContacts stDup).contacts.map (fun c => c.timePeriods) =
      [[⟨200, 200⟩, ⟨200, 200⟩]]) ∧
    ¬ List.Pairwise Period.Disjoint [Period.mk 200 200, Period.mk 200 200] := by
  refine ⟨by decide, ?_⟩
  intro h
  have hd : Period.Disjoint ⟨200, 200⟩ ⟨200, 200⟩ :=
    List.rel_of_pairwise_cons h (List.mem_cons_self _ _)
  exact hd 200 ⟨⟨le_refl _, le_refl _⟩, ⟨le_refl _, le_refl _⟩⟩

/-- C6 amended: for every aggregated pair whose timestamps sequence is
duplicate-free, the timePeriods are pairwise disjoint, ascending, and their
union as integer sets is exactly the timestamps; with repeated timestamps
(see the counterexample) the invariant fails because duplicates are not
removed before merging. -/
theorem processContactData_timePeriods_invariant :
    (∀ (data : List RawRecord) (ct : String) (c : Contact),
        c ∈ processContactData data ct → c.timestamps.Nodup → PeriodsInvariant c) ∧
    (∀ (st : LoaderState) (c : Contact),
        c ∈ (processContacts st).contacts → c.timestamps.Nodup → PeriodsInvariant c) := by
  have main : ∀ (data : List RawRecord) (ct : String) (c : Contact),
      c ∈ processContactData data ct → c.timestamps.Nodup → PeriodsInvariant c := by
    intro data ct c hc hn
    obtain ⟨c₀, rfl⟩ := exists_finalize_of_mem_processContactData hc
    have hs := finalizeContact_timestamps_sorted c₀
    have hchain := chain'_lt_of_sorted_nodup hs hn
    have inv := mergeTimePeriods_invariants (finalizeContact c₀).timestamps hchain
    unfold PeriodsInvariant
    rw [finalizeContact_timePeriods c₀]
    exact ⟨inv.1, inv.2.1, inv.2.2⟩
  refine ⟨main, ?_⟩
  intro st c hc hn
  exact main st.rawData "direct" c hc hn

/-- C6 witness: the end-to-end aggregate of records (2,9,100) and (9,2,101)
satisfies the period invariant: timePeriods [{100,101}] is disjoint,
ascending, and covers exactly {100, 101}. -/
theorem processContactData_timePeriods_invariant_witness :
    PeriodsInvariant cE :=
  processContactData_timePeriods_invariant.1 [rE1, rE2] "direct" cE
    (by decide) (by decide)

/-- C2: with a successful fetch of the preceding timestamp's records, the
new-contacts computation returns exactly the canonical pairs present at the
current timestamp and absent from the predecessor's canonical key set; with
no preceding timestamp every current pair counts as new; and the spec
example (previous pairs {(1,2),(3,4)}, current pairs {(1,2),(5,6)}) yields
exactly {(5,6)}. -/
theorem calculateAndRenderNewContacts_delta :
    (∀ (contacts : List Contact) (allTs : List Int) (ts : Int)
        (f : FetchOutcome (List RawRecord)),
        previousTimestampOf allTs ts = none →
        calculateAndRenderNewContacts contacts allTs ts f =
          currentContactsData contacts ts) ∧
    (∀ (contacts : List Contact) (allTs : List Int) (ts : Int)
        (prevData : List RawRecord) (k : Int × Int),
        (previousTimestampOf allTs ts).isSome = true →
        (k ∈ (calculateAndRenderNewContacts contacts allTs ts
            (.ok prevData)).map keyOfNewContact ↔
          k ∈ (currentContactsData contacts ts).map keyOfNewContact ∧
            ¬ k ∈ prevData.map canonicalIds)) ∧
    (calculateAndRenderNewContacts [cT12, cT56] [9, 10] 10
        (.ok [rP12, rP34])).map keyOfNewContact = [(5, 6)] := by
  refine ⟨?_, ?_, by decide⟩
  · intro contacts allTs ts f h
    simp [calculateAndRenderNewContacts, h]
  · intro contacts allTs ts prevData k h
    obtain ⟨p, hp⟩ := Option.isSome_iff_exists.mp h
    simp only [calculateAndRenderNewContacts, hp]
    simp only [List.mem_map, List.mem_filter, decide_not, Bool.not_eq_true',
      decide_eq_false_iff_not]
    constructor
    · rintro ⟨c, ⟨hc, hnc⟩, rfl⟩
      exact ⟨⟨c, hc, rfl⟩, hnc⟩
    · rintro ⟨⟨c, hc, rfl⟩, hk⟩
      exact ⟨c, ⟨hc, hk⟩, rfl⟩

/-- C2 witness: the membership characterization instantiated at the spec
example for the key (5,6). -/
theorem calculateAndRenderNewContacts_delta_witness :
    (5, 6) ∈ (calculateAndRenderNewContacts [cT12, cT56] [9, 10] 10
        (.ok [rP12, rP34])).map keyOfNewContact ↔
      (5, 6) ∈ (currentContactsData [cT12, cT56] 10).map keyOfNewContact ∧
        ¬ (5, 6) ∈ [rP12, rP34].map canonicalIds :=
  calculateAndRenderNewContacts_delta.2.1 [cT12, cT56] [9, 10] 10
    [rP12, rP34] (5, 6) (by decide)

/-- C8: when the current timestamp has a predecessor and the fetch of the
predecessor's data fails (non-ok HTTP status, or a thrown network/parse
error), the new-contacts computation completes normally and treats every
current pair as new. -/
theorem calculateAndRenderNewContacts_degrades :
    ∀ (contacts : List Contact) (allTs : List Int) (ts : Int),
      (previousTimestampOf allTs ts).isSome = true →
      calculateAndRenderNewContacts contacts allTs ts .httpError =
        currentContactsData contacts ts ∧
      calculateAndRenderNewContacts contacts allTs ts .networkError =
        currentContactsData contacts ts := by
  intro contacts allTs ts h
  obtain ⟨p, hp⟩ := Option.isSome_iff_exists.mp h
  constructor <;> simp [calculateAndRenderNewContacts, hp]

/-- C8 witness: at timestamp 10 with predecessor 9, a failed fetch of the
predecessor degrades to reporting both loaded pairs as new. -/
theorem calculateAndRenderNewContacts_degrades_witness :
    calculateAndRenderNewContacts [cT12, cT56] [9, 10] 10 .httpError =
      currentContactsData [cT12, cT56] 10 ∧
    calculateAndRenderNewContacts [cT12, cT56] [9, 10] 10 .networkError =
      currentContactsData [cT12, cT56] 10 :=
  calculateAndRenderNewContacts_degrades [cT12, cT56] [9, 10] 10 (by decide)

/-- C3 counterexample: set with the explicit ttl override 0 does not store
ttl 0 — the JS || chain treats 0 as falsy, so the category default 1800000
is stored instead, and a get one millisecond later still returns the value
although the claimed ttl 0 had already elapsed. -/
theorem cacheManager_zero_ttl_counterexample :
    mapGet ((CacheManager.set (⟨[]⟩ : CacheManager Nat) "contacts" "k" 42
        (some 0) 1000)).memoryCache (_getCacheKey "contacts" "k") =
      some ⟨42, 1000, 1800000⟩ ∧
    (1800000 : Int) ≠ 0 ∧
    (CacheManager.get (CacheManager.set (⟨[]⟩ : CacheManager Nat) "contacts" "k" 42
        (some 0) 1000) "contacts" "k" 1001).1 = some 42 := by
  refine ⟨by decide, by decide, by decide⟩

/-- C3 amended: set stores the entry under its cache key with
ttl = ttlOverride when the override is non-null and non-zero, and otherwise
the category default (900000 for unknown categories); in particular an
override of 0 falls back to the default. The write overwrites any previous
entry unconditionally. A get at age now2 - now ≤ ttl returns the value; at
age > ttl it returns none, evicts the entry, and any further get also
returns none. -/
theorem cacheManager_ttl_lifecycle :
    (∀ (α : Type) (m : CacheManager α) (cat key : String) (v : α)
        (ttlo : Option Int) (now : Int),
        mapGet (CacheManager.set m cat key v ttlo now).memoryCache
            (_getCacheKey cat key) =
          some ⟨v, now, computedTTL ttlo cat⟩) ∧
    (∀ (cat : String) (t : Int), t ≠ 0 → computedTTL (some t) cat = t) ∧
    (∀ cat : String, computedTTL (some 0) cat = computedTTL none cat) ∧
    (∀ (α : Type) (m : CacheManager α) (cat key : String) (v : α)
        (ttlo : Option Int) (now now2 : Int),
        now2 - now ≤ computedTTL ttlo cat →
        (CacheManager.get (CacheManager.set m cat key v ttlo now) cat key now2).1 =
          some v) ∧
    (∀ (α : Type) (m : CacheManager α) (cat key : String) (v : α)
        (ttlo : Option Int) (now now2 : Int),
        now2 - now > computedTTL ttlo cat →
        (CacheManager.get (CacheManager.set m cat key v ttlo now) cat key now2).1 =
          none ∧
        ∀ now3 : Int,
          (CacheManager.get
              (CacheManager.get (CacheManager.set m cat key v ttlo now)
                cat key now2).2 cat key now3).1 = none) := by
  have hset : ∀ (α : Type) (m : CacheManager α) (cat key : String) (v : α)
      (ttlo : Option Int) (now : Int),
      mapGet (CacheManager.set m cat key v ttlo now).memoryCache
          (_getCacheKey cat key) =
        some ⟨v, now, computedTTL ttlo cat⟩ := by
    intro α m cat key v ttlo now
    exact mapGet_mapSet_self m.memoryCache (_getCacheKey cat key) _
  refine ⟨hset, ?_, ?_, ?_, ?_⟩
  · intro cat t ht
    simp [computedTTL, ht]
  · intro cat
    simp [computedTTL]
  · intro α m cat key v ttlo now now2 hfresh
    simp only [CacheManager.get, hset]
    rw [if_neg (by omega)]
  · intro α m cat key v ttlo now now2 hstale
    have h1 : (CacheManager.get (CacheManager.set m cat key v ttlo now)
        cat key now2) =
        (none, ⟨mapDelete (CacheManager.set m cat key v ttlo now).memoryCache
          (_getCacheKey cat key)⟩) := by
      simp only [CacheManager.get, hset]
      rw [if_pos (by omega)]
    refine ⟨by rw [h1], ?_⟩
    intro now3
    rw [h1]
    simp only [CacheManager.get, mapGet_mapDelete_self]

/-- C3 witness: a freshly set entry in the contacts category is returned by
an immediate get. -/
theorem cacheManager_ttl_lifecycle_witness :
    (CacheManager.get (CacheManager.set (⟨[]⟩ : CacheManager Nat) "contacts" "k" 42
        none 0) "contacts" "k" 0).1 = some 42 :=
  cacheManager_ttl_lifecycle.2.2.2.1 Nat ⟨[]⟩ "contacts" "k" 42 none 0 0 (by decide)

/-- C7 counterexample: a network failure during queryUserContacts does not
surface an error to the caller — the operation completes normally with the
empty list (the catch block alerts and returns []), contrary to the claimed
uncaught propagation. -/
theorem queryUserContacts_failure_counterexample :
    (queryUserContacts emptyLoaderState emptyCacheState 7 0 .networkError).1 =
      JsOutcome.normal [] ∧
    (queryUserContacts emptyLoaderState emptyCacheState 7 0 .networkError).1 ≠
      JsOutcome.thrown := by
  exact ⟨by decide, by decide⟩

/-- C7 amended: every repository read catches fetch failures internally and
substitutes a fallback: user contacts, secondary contacts, and trajectory
return the empty list (leaving the loader state unchanged), and bounds
returns the fixed default rectangle; the single consulted fetch outcome is
never retried. -/
theorem repository_failure_fallback :
    (∀ (st : LoaderState) (cache : CacheState) (uid now : Int),
        (CacheManager.get cache "userContacts" ("direct_" ++ toString uid) now).1 =
          none →
        (queryUserContacts st cache uid now .httpError).1 = .normal [] ∧
        (queryUserContacts st cache uid now .httpError).2.1 = st ∧
        (queryUserContacts st cache uid now .networkError).1 = .normal [] ∧
        (queryUserContacts st cache uid now .networkError).2.1 = st) ∧
    (∀ (st : LoaderState) (cache : CacheState) (uid now : Int),
        (CacheManager.get cache "userContacts" ("secondary_" ++ toString uid) now).1 =
          none →
        (queryUserSecondaryContacts st cache uid now .httpError).1 = .normal [] ∧
        (queryUserSecondaryContacts st cache uid now .httpError).2.1 = st ∧
        (queryUserSecondaryContacts st cache uid now .networkError).1 = .normal [] ∧
        (queryUserSecondaryContacts st cache uid now .networkError).2.1 = st) ∧
    (∀ (cache : CacheState) (a b now : Int),
        (CacheManager.get cache "trajectory" (trajectoryCacheKey a b) now).1 =
          none →
        (getContactTrajectory cache a b now .httpError).1 = .normal [] ∧
        (getContactTrajectory cache a b now .networkError).1 = .normal []) ∧
    (∀ (cache : CacheState) (now : Int),
        (CacheManager.get cache "bounds" "all" now).1 = none →
        (getBoundsInfo cache now .httpError).1 = .normal fallbackBoundsInfo ∧
        (getBoundsInfo cache now .networkError).1 = .normal fallbackBoundsInfo) := by
  refine ⟨?_, ?_, ?_, ?_⟩
  · intro st cache uid now h
    rcases hg : CacheManager.get cache "userContacts" ("direct_" ++ toString uid) now
      with ⟨o, m2⟩
    rw [hg] at h
    simp only at h
    subst h
    simp [queryUserContacts, hg]
  · intro st cache uid now h
    rcases hg : CacheManager.get cache "userContacts" ("secondary_" ++ toString uid) now
      with ⟨o, m2⟩
    rw [hg] at h
    simp only at h
    subst h
    simp [queryUserSecondaryContacts, hg]
  · intro cache a b now h
    rcases hg : CacheManager.get cache "trajectory" (trajectoryCacheKey a b) now
      with ⟨o, m2⟩
    rw [hg] at h
    simp only at h
    subst h
    simp [getContactTrajectory, hg]
  · intro cache now h
    rcases hg : CacheManager.get cache "bounds" "all" now with ⟨o, m2⟩
    rw [hg] at h
    simp only at h
    subst h
    simp [getBoundsInfo, hg]

/-- C7 witness: on an empty cache, a failed user-contacts fetch for user 3
falls back to the empty list and leaves the loader untouched. -/
theorem repository_failure_fallback_witness :
    (queryUserContacts emptyLoaderState emptyCacheState 3 0 .httpError).1 =
      .normal [] ∧
    (queryUserContacts emptyLoaderState emptyCacheState 3 0 .httpError).2.1 =
      emptyLoaderState ∧
    (queryUserContacts emptyLoaderState emptyCacheState 3 0 .networkError).1 =
      .normal [] ∧
    (queryUserContacts emptyLoaderState emptyCacheState 3 0 .networkError).2.1 =
      emptyLoaderState :=
  repository_failure_fallback.1 emptyLoaderState emptyCacheState 3 0 (by decide)

/-- C9: prefetching an already-cached timestamp is a no-op (the state is
returned unchanged whatever the fetch would produce, so no fetch is
observable); prefetching never changes the display state rawData, contacts
or bounds; failures are swallowed leaving the state unchanged; and on
success the stored entry carries exactly the aggregation a normal network
load of the same records would compute for its contacts. -/
theorem preloadDataByTimestamp_behavior :
    (∀ (st : LoaderState) (ts : Int) (f : FetchOutcome (List RawRecord)),
        (mapGet st.dataCache ts).isSome = true →
        preloadDataByTimestamp st ts f = st) ∧
    (∀ (st : LoaderState) (ts : Int) (f : FetchOutcome (List RawRecord)),
        (preloadDataByTimestamp st ts f).rawData = st.rawData ∧
        (preloadDataByTimestamp st ts f).contacts = st.contacts ∧
        (preloadDataByTimestamp st ts f).bounds = st.bounds) ∧
    (∀ (st : LoaderState) (ts : Int),
        preloadDataByTimestamp st ts .httpError = st ∧
        preloadDataByTimestamp st ts .networkError = st) ∧
    (∀ (st : LoaderState) (ts : Int) (data : List RawRecord),
        mapGet st.dataCache ts = none →
        mapGet (preloadDataByTimestamp st ts (.ok data)).dataCache ts =
          some ⟨data, processContactData data "direct", computeBounds data⟩) ∧
    (∀ (st2 : LoaderState) (cache : CacheState) (now ts : Int)
        (data : List RawRecord),
        mapGet st2.dataCache ts = none →
        (CacheManager.get cache "contacts" (toString ts) now).1 = none →
        (loadDataByTimestamp st2 cache now ts (.ok data)).1.contacts =
          processContactData data "direct") := by
  refine ⟨?_, ?_, ?_, ?_, ?_⟩
  · intro st ts f h
    simp [preloadDataByTimestamp, h]
  · intro st ts f
    by_cases h : (mapGet st.dataCache ts).isSome
    · simp [preloadDataByTimestamp, h]
    · cases f <;> simp [preloadDataByTimestamp, h]
  · intro st ts
    by_cases h : (mapGet st.dataCache ts).isSome <;>
      constructor <;> simp [preloadDataByTimestamp, h]
  · intro st ts data h
    simp only [preloadDataByTimestamp, h, Option.isSome_none, Bool.false_eq_true,
      if_false]
    exact mapGet_mapSet_self st.dataCache ts _
  · intro st2 cache now ts data h hc
    rcases hg : CacheManager.get cache "contacts" (toString ts) now with ⟨o, m2⟩
    rw [hg] at hc
    simp only at hc
    subst hc
    simp [loadDataByTimestamp, h, hg, processContacts]

/-- C9 witness: with timestamp 5 already in the dataCache, prefetching 5 on
a failing fetch leaves the loader state unchanged. -/
theorem preloadDataByTimestamp_behavior_witness :
    preloadDataByTimestamp stPreW 5 .httpError = stPreW :=
  preloadDataByTimestamp_behavior.1 stPreW 5 .httpError (by decide)

/-- C10: serving loadDataByTimestamp from the prefetch dataCache installs
the entry as display state, deletes the dataCache entry, and writes nothing
to the CacheManager; hence, with no TTL entry for the timestamp, an
immediately following load misses both caches and reaches the network: it
reports false exactly when the fetch fails, and on success installs the
fetched records. -/
theorem loadDataByTimestamp_prefetch_single_use
    (st : LoaderState) (cache : CacheState) (now ts : Int) (e : PreEntry)
    (f : FetchOutcome (List RawRecord))
    (h1 : mapGet st.dataCache ts = some e)
    (h2 : (CacheManager.get cache "contacts" (toString ts) now).1 = none) :
    loadDataByTimestamp st cache now ts f =
      ({ st with
          rawData := e.rawData
          contacts := e.contacts
          bounds := e.bounds
          dataCache := mapDelete st.dataCache ts },
        cache, true) ∧
    mapGet (mapDelete st.dataCache ts) ts = none ∧
    (loadDataByTimestamp
      { st with
          rawData := e.rawData
          contacts := e.contacts
          bounds := e.bounds
          dataCache := mapDelete st.dataCache ts }
      cache now ts .httpError).2.2 = false ∧
    (∀ recs : List RawRecord,
      (loadDataByTimestamp
        { st with
            rawData := e.rawData
            contacts := e.contacts
            bounds := e.bounds
            dataCache := mapDelete st.dataCache ts }
        cache now ts (.ok recs)).1.rawData = recs) := by
  rcases hg : CacheManager.get cache "contacts" (toString ts) now with ⟨o, m2⟩
  rw [hg] at h2
  simp only at h2
  subst h2
  refine ⟨by simp [loadDataByTimestamp, h1], mapGet_mapDelete_self _ _, ?_, ?_⟩
  · simp [loadDataByTimestamp, mapGet_mapDelete_self, hg]
  · intro recs
    simp [loadDataByTimestamp, mapGet_mapDelete_self, hg, processContacts]

/-- C10 witness: a concrete prefetched entry for timestamp 5 is single-use:
the first load consumes it without writing the TTL cache and the second
load reaches the network. -/
theorem loadDataByTimestamp_prefetch_single_use_witness :
    loadDataByTimestamp stPreW emptyCacheState 0 5 .networkError =
      ({ stPreW with
          rawData := preEntryW.rawData
          contacts := preEntryW.contacts
          bounds := preEntryW.bounds
          dataCache := mapDelete stPreW.dataCache 5 },
        emptyCacheState, true) ∧
    mapGet (mapDelete stPreW.dataCache 5) 5 = none ∧
    (loadDataByTimestamp
      { stPreW with
          rawData := preEntryW.rawData
          contacts := preEntryW.contacts
          bounds := preEntryW.bounds
          dataCache := mapDelete stPreW.dataCache 5 }
      emptyCacheState 0 5 .httpError).2.2 = false ∧
    (∀ recs : List RawRecord,
      (loadDataByTimestamp
        { stPreW with
            rawData := preEntryW.rawData
            contacts := preEntryW.contacts
            bounds := preEntryW.bounds
            dataCache := mapDelete stPreW.dataCache 5 }
        emptyCacheState 0 5 (.ok recs)).1.rawData = recs) :=
  loadDataByTimestamp_prefetch_single_use stPreW emptyCacheState 0 5 preEntryW
    .networkError (by decide) (by decide)
